import Mathlib

/-!
# Tredgate Loan — verification of the domain and audit-trail core

Shallow embedding of the loan state-transition and audit-trail subsystem of the
Tredgate Loan application, together with proofs of its specified properties.

Embedding conventions:
* TypeScript numbers are modelled as rationals (`ℚ`); `termMonths` is a natural
  number (the spec fixes it to a positive integer).
* ISO-8601 timestamp strings are modelled by their epoch-millisecond value
  (`Int`), which is exactly the number the audit-log comparator
  `new Date(ts).getTime()` computes and is order-isomorphic to the ISO strings
  produced by `toISOString`.
* `generateId()` and the current time are nondeterministic environment inputs;
  the embedded constructors take them as explicit parameters.
* Optional interface fields (`previousStatus?`, …) become `Option`; a field
  absent from a TS object literal is `none`.
* Fallible operations return `Except String` (the thrown `Error` message).
-/

/-- Loan status union type (`'pending' | 'approved' | 'rejected'`), from the
loan type declarations used throughout `src/` and spec §3. -/
inductive LoanStatus
  | pending
  | approved
  | rejected
deriving DecidableEq, Repr

/-- The string literal stored for each status value. -/
def LoanStatus.str : LoanStatus → String
  | .pending => "pending"
  | .approved => "approved"
  | .rejected => "rejected"

/-- `LoanApplication` record (spec §3; field list as in the test fixtures of
`tests/LoanList.test.ts`). `createdAt` is an epoch-millisecond timestamp. -/
structure LoanApplication where
  id : String
  applicantName : String
  amount : ℚ
  termMonths : ℕ
  interestRate : ℚ
  status : LoanStatus
  createdAt : Int
deriving DecidableEq, Repr

/-- `AuditActionType` union from `src/src/types/auditLog.ts`. -/
inductive AuditActionType
  | loan_created
  | status_changed_manual
  | status_changed_auto
  | loan_deleted
deriving DecidableEq, Repr

/-- The string literal of each action type, as stored in the TS union type and
compared against the filter argument of `filterLogsByActionType`. -/
def AuditActionType.str : AuditActionType → String
  | .loan_created => "loan_created"
  | .status_changed_manual => "status_changed_manual"
  | .status_changed_auto => "status_changed_auto"
  | .loan_deleted => "loan_deleted"

/-- `AuditLogEntry` from `src/src/types/auditLog.ts`; the three optional
fields are `Option String`. -/
structure AuditLogEntry where
  id : String
  timestamp : Int
  actionType : AuditActionType
  loanId : String
  applicantName : String
  previousStatus : Option String
  newStatus : Option String
  loanAmount : ℚ
  decisionMethod : Option String
deriving DecidableEq, Repr

/-- `CreateLoanLogInput` from `src/src/types/auditLog.ts`. -/
structure CreateLoanLogInput where
  loanId : String
  applicantName : String
  loanAmount : ℚ
deriving DecidableEq, Repr

/-- `StatusChangeLogInput` from `src/src/types/auditLog.ts`. -/
structure StatusChangeLogInput where
  loanId : String
  applicantName : String
  loanAmount : ℚ
  previousStatus : String
  newStatus : String
  isAuto : Bool
deriving DecidableEq, Repr

/-- `DeleteLoanLogInput` from `src/src/types/auditLog.ts`. -/
structure DeleteLoanLogInput where
  loanId : String
  applicantName : String
  loanAmount : ℚ
  status : String
deriving DecidableEq, Repr

/-- `createLoanCreatedLog` from `src/src/services/auditLogService.ts`; the
generated id and the current time are the `freshId`/`now` parameters. The
fields `previousStatus`/`newStatus`/`decisionMethod` are absent from the
object literal. -/
def createLoanCreatedLog (freshId : String) (now : Int)
    (input : CreateLoanLogInput) : AuditLogEntry :=
  { id := freshId
    timestamp := now
    actionType := .loan_created
    loanId := input.loanId
    applicantName := input.applicantName
    previousStatus := none
    newStatus := none
    loanAmount := input.loanAmount
    decisionMethod := none }

/-- `createStatusChangeLog` from `src/src/services/auditLogService.ts`. -/
def createStatusChangeLog (freshId : String) (now : Int)
    (input : StatusChangeLogInput) : AuditLogEntry :=
  { id := freshId
    timestamp := now
    actionType := if input.isAuto then .status_changed_auto else .status_changed_manual
    loanId := input.loanId
    applicantName := input.applicantName
    previousStatus := some input.previousStatus
    newStatus := some input.newStatus
    loanAmount := input.loanAmount
    decisionMethod := some (if input.isAuto then "auto" else "manual") }

/-- `createLoanDeletedLog` from `src/src/services/auditLogService.ts`;
`newStatus` and `decisionMethod` are absent from the object literal. -/
def createLoanDeletedLog (freshId : String) (now : Int)
    (input : DeleteLoanLogInput) : AuditLogEntry :=
  { id := freshId
    timestamp := now
    actionType := .loan_deleted
    loanId := input.loanId
    applicantName := input.applicantName
    previousStatus := some input.status
    newStatus := none
    loanAmount := input.loanAmount
    decisionMethod := none }

/-- `getAuditLogs` from `src/src/services/auditLogService.ts`. `stored` is the
result of `localStorage.getItem(STORAGE_KEY)` (`none` = `null`); `parse`
models `JSON.parse` followed by the cast to `AuditLogEntry[]`, with
`Except.error` for a thrown `SyntaxError`. The falsy test `if (!stored)` is
true for `null` and for the empty string, and the surrounding `try`/`catch`
turns a parse error into `[]`. -/
def getAuditLogs (parse : String → Except String (List AuditLogEntry))
    (stored : Option String) : List AuditLogEntry :=
  match stored with
  | none => []
  | some s =>
      if s = "" then []
      else
        match parse s with
        | .ok logs => logs
        | .error _ => []

/-- `addAuditLog` from `src/src/services/auditLogService.ts`, at the level of
the persisted collection: load the stored logs, `push` the entry at the end,
store the result. -/
def addAuditLog (logs : List AuditLogEntry) (entry : AuditLogEntry) :
    List AuditLogEntry :=
  logs ++ [entry]

/-- `filterLogsByActionType` from `src/src/services/auditLogService.ts`. The
guard `!actionType || actionType === 'all'` returns the input unchanged; a
falsy string argument is the empty string. -/
def filterLogsByActionType (logs : List AuditLogEntry) (actionType : String) :
    List AuditLogEntry :=
  if actionType = "" ∨ actionType = "all" then logs
  else logs.filter (fun log => log.actionType.str == actionType)

/-- JavaScript `String.prototype.trim` on the underlying character list:
drop whitespace from both ends. -/
def listTrim (l : List Char) : List Char :=
  ((l.dropWhile Char.isWhitespace).reverse.dropWhile Char.isWhitespace).reverse

/-- `s.trim()` for strings. -/
def strTrim (s : String) : String :=
  ⟨listTrim s.data⟩

/-- JavaScript `String.prototype.toLowerCase` (on the ASCII alphabet the
application uses). -/
def strToLower (s : String) : String :=
  ⟨s.data.map Char.toLower⟩

/-- JavaScript `String.prototype.includes`, on the underlying character
lists: `needle` occurs contiguously in the haystack. -/
def listContains (needle : List Char) : List Char → Bool
  | [] => needle.isEmpty
  | c :: t => needle.isPrefixOf (c :: t) || listContains needle t

/-- `hay.includes(needle)` for strings. -/
def strContains (hay needle : String) : Bool :=
  listContains needle.data hay.data

/-- `searchLogs` from `src/src/services/auditLogService.ts`. The guard
`!searchTerm || searchTerm.trim() === ''` is equivalent to the trimmed term
being empty. -/
def searchLogs (logs : List AuditLogEntry) (searchTerm : String) :
    List AuditLogEntry :=
  if strTrim searchTerm = "" then logs
  else
    let term := strTrim (strToLower searchTerm)
    logs.filter (fun log =>
      strContains (strToLower log.applicantName) term ||
        strContains (strToLower log.loanId) term)

/-- The order `sortLogsByTimestamp` sorts by: `a` comes no later than `b`
exactly when `b`'s timestamp is at most `a`'s (descending, newest first). -/
def auditLogOrder (a b : AuditLogEntry) : Prop :=
  b.timestamp ≤ a.timestamp

instance : DecidableRel auditLogOrder :=
  fun a b => (inferInstance : Decidable (b.timestamp ≤ a.timestamp))

instance : IsTotal AuditLogEntry auditLogOrder :=
  ⟨fun a b => Int.le_total b.timestamp a.timestamp⟩

instance : IsTrans AuditLogEntry auditLogOrder :=
  ⟨fun _ _ _ h1 h2 => le_trans h2 h1⟩

/-- `sortLogsByTimestamp` from `src/src/services/auditLogService.ts`:
`[...logs].sort((a, b) => time(b) - time(a))`. `Array.prototype.sort` is
stable (ECMAScript 2019) and the comparator orders by descending timestamp,
which is exactly the stable insertion sort for `auditLogOrder`. -/
def sortLogsByTimestamp (logs : List AuditLogEntry) : List AuditLogEntry :=
  List.insertionSort auditLogOrder logs

/-- `processAuditLogs` from `src/src/services/auditLogService.ts`: filter,
then search, then sort. -/
def processAuditLogs (logs : List AuditLogEntry) (actionType : String)
    (searchTerm : String) : List AuditLogEntry :=
  sortLogsByTimestamp (searchLogs (filterLogsByActionType logs actionType) searchTerm)

/-- Field-presence notion of spec §3: `e` matches the shape required for a
`loan_created` entry. -/
def createdShape (e : AuditLogEntry) : Prop :=
  e.actionType = .loan_created ∧ e.previousStatus = none ∧
    e.newStatus = none ∧ e.decisionMethod = none

/-- Field-presence notion of spec §3 for a status-change entry. -/
def statusChangeShape (e : AuditLogEntry) : Prop :=
  (e.actionType = .status_changed_manual ∨ e.actionType = .status_changed_auto) ∧
    (∃ p, e.previousStatus = some p) ∧ (∃ n, e.newStatus = some n) ∧
    (∃ d, e.decisionMethod = some d)

/-- Field-presence notion of spec §3 for a `loan_deleted` entry. -/
def deletedShape (e : AuditLogEntry) : Prop :=
  e.actionType = .loan_deleted ∧ (∃ p, e.previousStatus = some p) ∧
    e.newStatus = none ∧ e.decisionMethod = none

/-- Input of loan creation (`{applicantName, amount, termMonths, interestRate}`,
spec §4.1; the call shape is pinned by `tests/LoanForm.test.ts`). -/
structure LoanInput where
  applicantName : String
  amount : ℚ
  termMonths : ℕ
  interestRate : ℚ
deriving DecidableEq, Repr

namespace LoanService

/-- Modelled from the spec: `src/services/loanService.ts` is not under `src/`
(only its tests and callers are). Spec §4.1 fixes the validation of `create`:
name, then amount, then term, then rate; the first failing check's message is
surfaced and later checks are not evaluated; the four messages are pinned
verbatim by §4.1 and by `tests/LoanForm.test.ts`. -/
def validateLoanInput (input : LoanInput) : Except String Unit :=
  if strTrim input.applicantName = "" then
    .error "Applicant name is required"
  else if ¬ 0 < input.amount then
    .error "Amount must be greater than 0"
  else if ¬ 0 < input.termMonths then
    .error "Term months must be greater than 0"
  else if ¬ 0 ≤ input.interestRate then
    .error "Interest rate is required and cannot be negative"
  else
    .ok ()

/-- Modelled from the spec: `loanService.createLoanApplication` is not under
`src/`. Spec §4.1 `create`: validate (see `validateLoanInput`); on success
assign a fresh id, set `status = pending` and `createdAt` to the current time,
append to the persisted loan collection, and return the new record. -/
def createLoanApplication (loans : List LoanApplication) (freshId : String)
    (now : Int) (input : LoanInput) :
    Except String (List LoanApplication × LoanApplication) :=
  match validateLoanInput input with
  | .error e => .error e
  | .ok _ =>
      let loan : LoanApplication :=
        { id := freshId
          applicantName := input.applicantName
          amount := input.amount
          termMonths := input.termMonths
          interestRate := input.interestRate
          status := .pending
          createdAt := now }
      .ok (loans ++ [loan], loan)

/-- Modelled from the spec: `loanService.updateLoanStatus` is not under
`src/`. Spec §4.1 `updateStatus`: fail with `NotFoundError` when no record
with the id exists; otherwise set the status of that record in place and
persist the collection (the reference behavior does not guard against a
non-pending record). -/
def updateLoanStatus (loans : List LoanApplication) (id : String)
    (newStatus : LoanStatus) : Except String (List LoanApplication) :=
  match loans.find? (fun l => l.id == id) with
  | none => .error "Loan not found"
  | some _ =>
      .ok (loans.map (fun l => if l.id == id then { l with status := newStatus } else l))

/-- Modelled from the spec: the `autoDecide` decision rule of spec §4.1:
`approved` exactly when `amount <= 100000 AND termMonths <= 60`, else
`rejected`, both boundaries inclusive (corroborated by the Auto-decide e2e
tests). -/
def autoDecideStatus (amount : ℚ) (termMonths : ℕ) : LoanStatus :=
  if amount ≤ 100000 ∧ termMonths ≤ 60 then .approved else .rejected

/-- Modelled from the spec: `loanService.autoDecideLoan` is not under `src/`.
Spec §4.1 `autoDecide`: fail with `NotFoundError` when the record is absent,
apply the decision rule, persist like `updateStatus`, and return both the old
and the new status for the caller's audit entry. -/
def autoDecideLoan (loans : List LoanApplication) (id : String) :
    Except String (List LoanApplication × LoanStatus × LoanStatus) :=
  match loans.find? (fun l => l.id == id) with
  | none => .error "Loan not found"
  | some loan =>
      let newStatus := autoDecideStatus loan.amount loan.termMonths
      .ok (loans.map (fun l => if l.id == id then { l with status := newStatus } else l),
        loan.status, newStatus)

/-- Modelled from the spec: `loanService.deleteLoan` is not under `src/`.
Spec §4.1 `delete`: fail with `NotFoundError` when absent; remove the record,
persist, and return the removed record for the deletion audit entry. -/
def deleteLoan (loans : List LoanApplication) (id : String) :
    Except String (List LoanApplication × LoanApplication) :=
  match loans.find? (fun l => l.id == id) with
  | none => .error "Loan not found"
  | some loan => .ok (loans.filter (fun l => l.id != id), loan)

/-- Modelled from the spec: `loanService.calculateMonthlyPayment` (the
function `LoanList.vue` displays) is not under `src/`. Spec §4.1/§9 record
that this display surface computes the approximation
`(amount * (1 + interestRate)) / termMonths` rather than the amortizing
formula, and its unit test (`tests/LoanList.test.ts`, "calculates and displays
monthly payment correctly") pins `$2,250.00 = 50000 * 1.08 / 24` for the loan
`(50000, 24 months, 8%)`, which only this approximation produces. -/
def calculateMonthlyPayment (loan : LoanApplication) : ℚ :=
  loan.amount * (1 + loan.interestRate) / loan.termMonths

end LoanService

namespace TestHelpers

/-- `calculateMonthlyPayment` from `e2e-tests/helpers/test-helpers.ts`
(the e2e expected-value helper): `amount / termMonths` at zero rate,
otherwise the amortizing-payment formula. -/
def calculateMonthlyPayment (amount : ℚ) (termMonths : ℕ) (annualRate : ℚ) : ℚ :=
  if annualRate = 0 then amount / termMonths
  else
    let monthlyRate := annualRate / 12
    let numerator := amount * (monthlyRate * (1 + monthlyRate) ^ termMonths)
    let denominator := (1 + monthlyRate) ^ termMonths - 1
    numerator / denominator

end TestHelpers

/-- The monthly-payment formula exactly as spec §4.1 states it
(`amount / termMonths` when `interestRate == 0`, otherwise
`amount * r * (1+r)^n / ((1+r)^n - 1)` with `r = interestRate / 12` and
`n = termMonths`), written from the spec's words for comparison with the
embedded code. -/
def specMonthlyPayment (amount : ℚ) (termMonths : ℕ) (interestRate : ℚ) : ℚ :=
  if interestRate = 0 then amount / termMonths
  else
    amount * (interestRate / 12) * (1 + interestRate / 12) ^ termMonths /
      ((1 + interestRate / 12) ^ termMonths - 1)

/-- The whole client-side state: the two persisted collections (spec §6). -/
structure AppState where
  loans : List LoanApplication
  auditLogs : List AuditLogEntry
deriving DecidableEq, Repr

/-- Modelled from the spec: the orchestration of a successful create action
(the audit-append wiring sits in code that is not under `src/`). Spec §6:
after every successful Domain Service mutation the Orchestration Layer
constructs and appends exactly one matching audit entry — here via the real
`createLoanCreatedLog` and `addAuditLog` of `auditLogService.ts`. -/
def createAction (s : AppState) (input : LoanInput) (freshLoanId freshLogId : String)
    (now : Int) : Except String AppState :=
  match LoanService.createLoanApplication s.loans freshLoanId now input with
  | .error e => .error e
  | .ok (loans', loan) =>
      .ok { loans := loans'
            auditLogs := addAuditLog s.auditLogs (createLoanCreatedLog freshLogId now
              { loanId := loan.id
                applicantName := loan.applicantName
                loanAmount := loan.amount }) }

/-- Modelled from the spec: the orchestration of `handleApprove`/`handleReject`
(`src/src/App.vue` calls `updateLoanStatus(id, newStatus)`; the audit-append
wiring is in code not under `src/`). On success exactly one status-change
entry is appended, built from the record's status before the mutation via the
real `createStatusChangeLog` and `addAuditLog`. -/
def updateStatusAction (s : AppState) (id : String) (newStatus : LoanStatus)
    (freshLogId : String) (now : Int) : Except String AppState :=
  match s.loans.find? (fun l => l.id == id) with
  | none => .error "Loan not found"
  | some loan =>
      match LoanService.updateLoanStatus s.loans id newStatus with
      | .error e => .error e
      | .ok loans' =>
          .ok { loans := loans'
                auditLogs := addAuditLog s.auditLogs (createStatusChangeLog freshLogId now
                  { loanId := loan.id
                    applicantName := loan.applicantName
                    loanAmount := loan.amount
                    previousStatus := loan.status.str
                    newStatus := newStatus.str
                    isAuto := false }) }

/-- Modelled from the spec: the orchestration of `handleAutoDecide`
(`src/src/App.vue` calls `autoDecideLoan(id)`; the audit-append wiring is in
code not under `src/`). On success exactly one auto status-change entry is
appended, built from the statuses `autoDecideLoan` returns. -/
def autoDecideAction (s : AppState) (id : String) (freshLogId : String)
    (now : Int) : Except String AppState :=
  match s.loans.find? (fun l => l.id == id) with
  | none => .error "Loan not found"
  | some loan =>
      match LoanService.autoDecideLoan s.loans id with
      | .error e => .error e
      | .ok (loans', prev, next) =>
          .ok { loans := loans'
                auditLogs := addAuditLog s.auditLogs (createStatusChangeLog freshLogId now
                  { loanId := loan.id
                    applicantName := loan.applicantName
                    loanAmount := loan.amount
                    previousStatus := prev.str
                    newStatus := next.str
                    isAuto := true }) }

/-- Modelled from the spec: the orchestration of `handleDelete`
(`src/src/App.vue` calls `deleteLoan(id)`; the audit-append wiring is in code
not under `src/`). On success exactly one deletion entry is appended, built
from the removed record that `deleteLoan` returns. -/
def deleteAction (s : AppState) (id : String) (freshLogId : String)
    (now : Int) : Except String AppState :=
  match LoanService.deleteLoan s.loans id with
  | .error e => .error e
  | .ok (loans', removed) =>
      .ok { loans := loans'
            auditLogs := addAuditLog s.auditLogs (createLoanDeletedLog freshLogId now
              { loanId := removed.id
                applicantName := removed.applicantName
                loanAmount := removed.amount
                status := removed.status.str }) }

/-- One user action as dispatched by the UI. The `pending` guards on approve,
reject and auto-decide mirror the `v-if="loan.status === 'pending'"`
conditions of `LoanList.vue`: those buttons only exist for pending rows, so
the corresponding `App.vue` handlers only ever fire for a pending loan. The
create step requires a genuinely fresh id (spec §3: ids are unique and never
reused). -/
inductive Step : AppState → AppState → Prop
  | create {s s' : AppState} (input : LoanInput) (freshLoanId freshLogId : String)
      (now : Int) :
      (∀ l ∈ s.loans, l.id ≠ freshLoanId) →
      createAction s input freshLoanId freshLogId now = .ok s' →
      Step s s'
  | approve {s s' : AppState} (id freshLogId : String) (now : Int)
      (loan : LoanApplication) :
      loan ∈ s.loans → loan.id = id → loan.status = .pending →
      updateStatusAction s id .approved freshLogId now = .ok s' →
      Step s s'
  | reject {s s' : AppState} (id freshLogId : String) (now : Int)
      (loan : LoanApplication) :
      loan ∈ s.loans → loan.id = id → loan.status = .pending →
      updateStatusAction s id .rejected freshLogId now = .ok s' →
      Step s s'
  | autoDecide {s s' : AppState} (id freshLogId : String) (now : Int)
      (loan : LoanApplication) :
      loan ∈ s.loans → loan.id = id → loan.status = .pending →
      autoDecideAction s id freshLogId now = .ok s' →
      Step s s'
  | delete {s s' : AppState} (id freshLogId : String) (now : Int) :
      deleteAction s id freshLogId now = .ok s' →
      Step s s'

/-- The initial state: both persisted collections start out empty. -/
def initState : AppState := { loans := [], auditLogs := [] }

/-- A state the application can actually be in: reachable from the initial
state by user actions. -/
def Reachable (s : AppState) : Prop :=
  Relation.ReflTransGen Step initState s

/-- A JavaScript heap of audit-log arrays: references are indices, allocation
appends. Used to state the frame property of the query stages (which JS
arrays each stage writes to). -/
abbrev JsHeap := List (List AuditLogEntry)

/-- Read the array behind a reference (a dangling reference reads `[]`). -/
def heapGet (h : JsHeap) (r : ℕ) : List AuditLogEntry :=
  List.getD h r []

/-- Allocate a new array and return its reference. -/
def heapAlloc (h : JsHeap) (v : List AuditLogEntry) : JsHeap × ℕ :=
  (h ++ [v], h.length)

/-- Overwrite the array behind a reference (an in-place mutation). -/
def heapWrite (h : JsHeap) (r : ℕ) (v : List AuditLogEntry) : JsHeap :=
  h.set r v

/-- `filterLogsByActionType` at the heap level: the guard branch returns the
argument reference itself, the other branch allocates the array
`Array.prototype.filter` builds. -/
def filterLogsByActionTypeH (h : JsHeap) (r : ℕ) (actionType : String) :
    JsHeap × ℕ :=
  if actionType = "" ∨ actionType = "all" then (h, r)
  else heapAlloc h ((heapGet h r).filter (fun log => log.actionType.str == actionType))

/-- `searchLogs` at the heap level, as for `filterLogsByActionTypeH`. -/
def searchLogsH (h : JsHeap) (r : ℕ) (searchTerm : String) : JsHeap × ℕ :=
  if strTrim searchTerm = "" then (h, r)
  else
    let term := strTrim (strToLower searchTerm)
    heapAlloc h ((heapGet h r).filter (fun log =>
      strContains (strToLower log.applicantName) term ||
        strContains (strToLower log.loanId) term))

/-- `sortLogsByTimestamp` at the heap level: `[...logs]` allocates a copy and
`.sort(...)` mutates that copy in place; the reference returned is the
copy's. -/
def sortLogsByTimestampH (h : JsHeap) (r : ℕ) : JsHeap × ℕ :=
  let copy := heapAlloc h (heapGet h r)
  (heapWrite copy.1 copy.2 (sortLogsByTimestamp (heapGet copy.1 copy.2)), copy.2)

/-- `processAuditLogs` at the heap level: the three stages chained on the
heap. -/
def processAuditLogsH (h : JsHeap) (r : ℕ) (actionType searchTerm : String) :
    JsHeap × ℕ :=
  let f := filterLogsByActionTypeH h r actionType
  let g := searchLogsH f.1 f.2 searchTerm
  sortLogsByTimestampH g.1 g.2

/-- The pending loan fixture of `tests/LoanList.test.ts` (`mockLoans[0]`):
John Doe, $50,000, 24 months, 8% (`createdAt` 2024-01-01 in epoch ms). -/
def johnDoeLoan : LoanApplication :=
  { id := "1"
    applicantName := "John Doe"
    amount := 50000
    termMonths := 24
    interestRate := 2/25
    status := .pending
    createdAt := 1704067200000 }

/-- The zero-interest loan of the e2e test "should handle zero interest
rate": $50,000 over 36 months at rate 0. -/
def zeroRateLoan : LoanApplication :=
  { id := "z"
    applicantName := "Zero Interest User"
    amount := 50000
    termMonths := 36
    interestRate := 0
    status := .pending
    createdAt := 1704067200000 }

/-- The create input of the end-to-end scenario fixtures (John Doe,
$50,000, 24 months, 8%). -/
def johnDoeInput : LoanInput :=
  { applicantName := "John Doe"
    amount := 50000
    termMonths := 24
    interestRate := ⟨2, 25, by decide, by decide⟩ }

/-- An application state holding exactly the pending fixture loan. -/
def stateWithJohn : AppState :=
  { loans := [johnDoeLoan]
    auditLogs := [] }

/-- The state after creating the fixture loan from the empty state. -/
def stateAfterCreate : AppState :=
  ((createAction initState johnDoeInput "L1" "G1" 1000).toOption).getD initState

/-- The state after manually approving the fixture loan. -/
def stateAfterApprove : AppState :=
  ((updateStatusAction stateWithJohn "1" .approved "G2" 2000).toOption).getD stateWithJohn

/-- The state after auto-deciding the fixture loan. -/
def stateAfterAutoDecide : AppState :=
  ((autoDecideAction stateWithJohn "1" "G3" 3000).toOption).getD stateWithJohn

/-- The state after deleting the fixture loan. -/
def stateAfterDelete : AppState :=
  ((deleteAction stateWithJohn "1" "G4" 4000).toOption).getD stateWithJohn

/-- The loan record created by the create fixture (fresh id "L1" at time
1000). -/
def createdJohn : LoanApplication :=
  { id := "L1"
    applicantName := "John Doe"
    amount := 50000
    termMonths := 24
    interestRate := ⟨2, 25, by decide, by decide⟩
    status := .pending
    createdAt := 1000 }

/-- The state after creating and then manually approving the fixture loan. -/
def stateAfterCreateApprove : AppState :=
  ((updateStatusAction stateAfterCreate "L1" .approved "G2" 2000).toOption).getD
    stateAfterCreate

/-- C5: every audit entry produced by the entry constructors satisfies the
field-presence invariant of spec §3: a `loan_created` entry has no
`previousStatus`, `newStatus` or `decisionMethod`; a status-change entry has
all three; a `loan_deleted` entry has `previousStatus` (the status at
deletion) but neither `newStatus` nor `decisionMethod`. -/
theorem auditConstructors_fieldPresence (cid sid did : String) (t1 t2 t3 : Int)
    (cIn : CreateLoanLogInput) (sIn : StatusChangeLogInput)
    (dIn : DeleteLoanLogInput) :
    createdShape (createLoanCreatedLog cid t1 cIn) ∧
    statusChangeShape (createStatusChangeLog sid t2 sIn) ∧
    (createStatusChangeLog sid t2 sIn).previousStatus = some sIn.previousStatus ∧
    (createStatusChangeLog sid t2 sIn).newStatus = some sIn.newStatus ∧
    deletedShape (createLoanDeletedLog did t3 dIn) ∧
    (createLoanDeletedLog did t3 dIn).previousStatus = some dIn.status := by
  refine ⟨⟨rfl, rfl, rfl, rfl⟩, ⟨?_, ⟨_, rfl⟩, ⟨_, rfl⟩, ⟨_, rfl⟩⟩,
    rfl, rfl, ⟨rfl, ⟨_, rfl⟩, rfl, rfl⟩, rfl⟩
  by_cases h : sIn.isAuto
  · right; simp [createStatusChangeLog, h]
  · left; simp [createStatusChangeLog, h]

/-- C8: loading the audit log never throws: a missing stored value (`null` or
the falsy empty string) and a stored value `JSON.parse` rejects both yield the
empty collection. -/
theorem getAuditLogs_never_throws
    (parse : String → Except String (List AuditLogEntry)) :
    getAuditLogs parse none = [] ∧
    getAuditLogs parse (some "") = [] ∧
    ∀ s e, parse s = .error e → getAuditLogs parse (some s) = [] := by
  refine ⟨rfl, rfl, fun s e h => ?_⟩
  by_cases hs : s = "" <;> simp [getAuditLogs, hs, h]

/-- Witness for C8 at the stored value of the unit test "returns empty array
when stored data is invalid". -/
theorem getAuditLogs_never_throws_witness :
    getAuditLogs (fun _ => .error "SyntaxError") (some "invalid-json") = [] :=
  (getAuditLogs_never_throws _).2.2 "invalid-json" "SyntaxError" rfl

/-- C3: the auto-decide rule approves exactly when `amount <= 100000` and
`termMonths <= 60`, both boundaries inclusive, and rejects otherwise; the
three boundary points of spec §8 behave as stated; and a successful
`autoDecideLoan` assigns exactly this status for the found loan, reporting
its previous status. -/
theorem autoDecide_rule :
    (∀ (a : ℚ) (t : ℕ),
      LoanService.autoDecideStatus a t = .approved ↔ a ≤ 100000 ∧ t ≤ 60) ∧
    (∀ (a : ℚ) (t : ℕ),
      LoanService.autoDecideStatus a t = .rejected ↔ ¬ (a ≤ 100000 ∧ t ≤ 60)) ∧
    LoanService.autoDecideStatus 100000 60 = .approved ∧
    LoanService.autoDecideStatus 100001 60 = .rejected ∧
    LoanService.autoDecideStatus 100000 61 = .rejected ∧
    ∀ (loans : List LoanApplication) (id : String) loans' prev next,
      LoanService.autoDecideLoan loans id = .ok (loans', prev, next) →
      ∃ loan, loan ∈ loans ∧ loan.id = id ∧ prev = loan.status ∧
        next = LoanService.autoDecideStatus loan.amount loan.termMonths := by
  refine ⟨fun a t => ?_, fun a t => ?_, by decide, by decide, by decide,
    fun loans id loans' prev next h => ?_⟩
  · unfold LoanService.autoDecideStatus
    split_ifs with hc <;> simp [hc]
  · unfold LoanService.autoDecideStatus
    split_ifs with hc <;> simp [hc]
  · unfold LoanService.autoDecideLoan at h
    cases hfind : loans.find? (fun l => l.id == id) with
    | none => rw [hfind] at h; exact absurd h (by simp)
    | some loan =>
        rw [hfind] at h
        simp only [Except.ok.injEq, Prod.mk.injEq] at h
        exact ⟨loan, List.mem_of_find?_eq_some hfind,
          by simpa using List.find?_some hfind, h.2.1.symm, h.2.2.symm⟩

/-- Witness for C3 at the concrete pending loan fixture. -/
theorem autoDecide_rule_witness :
    ∃ loan, loan ∈ [johnDoeLoan] ∧ loan.id = "1" ∧
      LoanStatus.pending = loan.status ∧
      LoanStatus.approved = LoanService.autoDecideStatus loan.amount loan.termMonths :=
  autoDecide_rule.2.2.2.2.2 [johnDoeLoan] "1"
    [{ johnDoeLoan with status := .approved }] .pending .approved (by rfl)

/-- C9: `create` validates in the fixed order name, amount, term, rate and
surfaces the first failing check's message, with the four messages pinned
verbatim; in particular an empty (post-trim) name together with a
non-positive amount yields the name-required message. `createLoanApplication`
fails with exactly the message `validateLoanInput` produces. -/
theorem create_validation_order (input : LoanInput) :
    (LoanService.validateLoanInput input = .error "Applicant name is required"
      ↔ strTrim input.applicantName = "") ∧
    (LoanService.validateLoanInput input = .error "Amount must be greater than 0"
      ↔ strTrim input.applicantName ≠ "" ∧ input.amount ≤ 0) ∧
    (LoanService.validateLoanInput input = .error "Term months must be greater than 0"
      ↔ strTrim input.applicantName ≠ "" ∧ 0 < input.amount ∧ input.termMonths = 0) ∧
    (LoanService.validateLoanInput input
        = .error "Interest rate is required and cannot be negative"
      ↔ strTrim input.applicantName ≠ "" ∧ 0 < input.amount ∧
          0 < input.termMonths ∧ input.interestRate < 0) ∧
    (strTrim input.applicantName = "" → input.amount ≤ 0 →
      LoanService.validateLoanInput input = .error "Applicant name is required") ∧
    ∀ (loans : List LoanApplication) (freshId : String) (now : Int) (m : String),
      LoanService.createLoanApplication loans freshId now input = .error m
        ↔ LoanService.validateLoanInput input = .error m := by
  have hmain : (LoanService.validateLoanInput input = .error "Applicant name is required"
      ↔ strTrim input.applicantName = "") ∧
      (LoanService.validateLoanInput input = .error "Amount must be greater than 0"
        ↔ strTrim input.applicantName ≠ "" ∧ input.amount ≤ 0) ∧
      (LoanService.validateLoanInput input = .error "Term months must be greater than 0"
        ↔ strTrim input.applicantName ≠ "" ∧ 0 < input.amount ∧ input.termMonths = 0) ∧
      (LoanService.validateLoanInput input
          = .error "Interest rate is required and cannot be negative"
        ↔ strTrim input.applicantName ≠ "" ∧ 0 < input.amount ∧
            0 < input.termMonths ∧ input.interestRate < 0) := by
    unfold LoanService.validateLoanInput
    split_ifs with h1 h2 h3 h4 <;>
      simp_all [not_lt, Nat.pos_iff_ne_zero, le_of_lt]
  refine ⟨hmain.1, hmain.2.1, hmain.2.2.1, hmain.2.2.2,
    fun hname _ => hmain.1.mpr hname, fun loans freshId now m => ?_⟩
  unfold LoanService.createLoanApplication
  cases hv : LoanService.validateLoanInput input <;> simp [hv]

/-- Witness for C9: the empty-name-and-zero-amount input fails with the
name-required message, and `createLoanApplication` surfaces it. -/
theorem create_validation_order_witness :
    LoanService.validateLoanInput
        { applicantName := "   ", amount := 0, termMonths := 12,
          interestRate := 1/20 }
      = .error "Applicant name is required" ∧
    LoanService.createLoanApplication [] "1" 0
        { applicantName := "   ", amount := 0, termMonths := 12,
          interestRate := 1/20 }
      = .error "Applicant name is required" :=
  have h := create_validation_order
    { applicantName := "   ", amount := 0, termMonths := 12, interestRate := 1/20 }
  have hv := h.2.2.2.2.1 rfl (le_refl 0)
  ⟨hv, (h.2.2.2.2.2 [] "1" 0 "Applicant name is required").mpr hv⟩

/-- Counterexample for C2: at the loan of the repository's own unit test
("calculates and displays monthly payment correctly": $50,000, 24 months,
8%), the payment `LoanList` displays is $2,250.00 — the value its test
demands — while the claimed amortizing formula gives a different value
(about $2,261.36), so `calculateMonthlyPayment` does not equal the amortizing
formula at nonzero rates. -/
theorem monthlyPayment_formula_cex :
    LoanService.calculateMonthlyPayment johnDoeLoan = 2250 ∧
    specMonthlyPayment johnDoeLoan.amount johnDoeLoan.termMonths
        johnDoeLoan.interestRate ≠ 2250 ∧
    LoanService.calculateMonthlyPayment johnDoeLoan ≠
      specMonthlyPayment johnDoeLoan.amount johnDoeLoan.termMonths
        johnDoeLoan.interestRate := by
  have h2 : specMonthlyPayment johnDoeLoan.amount johnDoeLoan.termMonths
      johnDoeLoan.interestRate ≠ 2250 := by
    unfold specMonthlyPayment johnDoeLoan
    rw [if_neg (by norm_num)]
    norm_num
  have h1 : LoanService.calculateMonthlyPayment johnDoeLoan = 2250 := by
    unfold LoanService.calculateMonthlyPayment johnDoeLoan
    norm_num
  exact ⟨h1, h2, fun h => h2 (h ▸ h1)⟩

/-- C2 as amended: the `calculateMonthlyPayment` that `LoanList.vue` displays
computes `amount * (1 + interestRate) / termMonths` — which coincides with
the claimed `amount / termMonths` when `interestRate = 0` — while the e2e
helper's `calculateMonthlyPayment` reproduces the claimed two-case
amortizing formula exactly. -/
theorem monthlyPayment_amended (loan : LoanApplication) (a r : ℚ) (n : ℕ) :
    (loan.interestRate = 0 →
      LoanService.calculateMonthlyPayment loan = loan.amount / loan.termMonths) ∧
    LoanService.calculateMonthlyPayment loan
      = loan.amount * (1 + loan.interestRate) / loan.termMonths ∧
    TestHelpers.calculateMonthlyPayment a n r = specMonthlyPayment a n r := by
  refine ⟨fun h => ?_, rfl, ?_⟩
  · unfold LoanService.calculateMonthlyPayment
    rw [h]
    ring_nf
  · unfold TestHelpers.calculateMonthlyPayment specMonthlyPayment
    by_cases hr : r = 0
    · simp [hr]
    · rw [if_neg hr, if_neg hr]
      ring_nf

/-- Witness for C2 (amended) at the zero-interest e2e loan: $50,000 over 36
months at rate 0 has monthly payment `50000 / 36` (displayed as $1,388.89). -/
theorem monthlyPayment_amended_witness :
    LoanService.calculateMonthlyPayment zeroRateLoan
      = zeroRateLoan.amount / zeroRateLoan.termMonths :=
  (monthlyPayment_amended zeroRateLoan 0 0 0).1 rfl

/-- Inserting an entry into a list keeps the entries of any fixed timestamp
`t` in order: the inserted entry lands before every existing entry of its own
timestamp (stability of `orderedInsert` for `auditLogOrder`). -/
theorem filter_ts_orderedInsert (t : Int) (a : AuditLogEntry)
    (l : List AuditLogEntry) :
    (List.orderedInsert auditLogOrder a l).filter (fun e => decide (e.timestamp = t))
      = (if a.timestamp = t then [a] else [])
          ++ l.filter (fun e => decide (e.timestamp = t)) := by
  induction l with
  | nil =>
      by_cases ha : a.timestamp = t <;>
        simp [List.orderedInsert, List.filter_cons, ha]
  | cons y ys ih =>
      simp only [List.orderedInsert]
      by_cases hr : auditLogOrder a y
      · rw [if_pos hr]
        by_cases ha : a.timestamp = t <;> simp [List.filter_cons, ha]
      · rw [if_neg hr]
        have hlt : a.timestamp < y.timestamp := by
          unfold auditLogOrder at hr
          omega
        by_cases hy : y.timestamp = t
        · have ha : ¬ a.timestamp = t := by omega
          simp [List.filter_cons, hy, ha, ih]
        · simp [List.filter_cons, hy, ih]

/-- Stability of the audit sort: for every timestamp `t`, the entries of the
sorted list with timestamp `t` are exactly the entries of the input with
timestamp `t`, in the input's order. -/
theorem filter_ts_sortLogsByTimestamp (t : Int) (l : List AuditLogEntry) :
    (sortLogsByTimestamp l).filter (fun e => decide (e.timestamp = t))
      = l.filter (fun e => decide (e.timestamp = t)) := by
  unfold sortLogsByTimestamp
  induction l with
  | nil => rfl
  | cons a l ih =>
      simp only [List.insertionSort]
      rw [filter_ts_orderedInsert, ih, List.filter_cons]
      by_cases ha : a.timestamp = t <;> simp [ha]

/-- The filter stage returns a sublist (in particular a subsequence in input
order) of its input. -/
theorem filterLogsByActionType_sublist (logs : List AuditLogEntry)
    (actionType : String) :
    List.Sublist (filterLogsByActionType logs actionType) logs := by
  unfold filterLogsByActionType
  split_ifs
  · exact List.Sublist.refl _
  · exact List.filter_sublist _

/-- The search stage returns a sublist of its input. -/
theorem searchLogs_sublist (logs : List AuditLogEntry) (searchTerm : String) :
    List.Sublist (searchLogs logs searchTerm) logs := by
  unfold searchLogs
  split_ifs
  · exact List.Sublist.refl _
  · exact List.filter_sublist _

/-- C6: the result of the query pipeline is sorted descending by timestamp
(newest first), and entries with equal timestamps keep their relative input
order: for every timestamp they appear exactly as in the pre-sort stage
output, which is itself a subsequence of the input list in input order.
`sortLogsByTimestamp` alone satisfies the same two properties. -/
theorem processAuditLogs_sorted_stable (logs : List AuditLogEntry)
    (actionType searchTerm : String) :
    (sortLogsByTimestamp logs).Sorted auditLogOrder ∧
    (∀ t : Int,
      (sortLogsByTimestamp logs).filter (fun e => decide (e.timestamp = t))
        = logs.filter (fun e => decide (e.timestamp = t))) ∧
    (processAuditLogs logs actionType searchTerm).Sorted auditLogOrder ∧
    (∀ t : Int,
      (processAuditLogs logs actionType searchTerm).filter
          (fun e => decide (e.timestamp = t))
        = (searchLogs (filterLogsByActionType logs actionType) searchTerm).filter
            (fun e => decide (e.timestamp = t))) ∧
    (∀ t : Int,
      List.Sublist
        ((processAuditLogs logs actionType searchTerm).filter
          (fun e => decide (e.timestamp = t)))
        (logs.filter (fun e => decide (e.timestamp = t)))) := by
  refine ⟨List.sorted_insertionSort auditLogOrder logs,
    fun t => filter_ts_sortLogsByTimestamp t logs,
    List.sorted_insertionSort auditLogOrder _,
    fun t => filter_ts_sortLogsByTimestamp t _, fun t => ?_⟩
  unfold processAuditLogs
  rw [filter_ts_sortLogsByTimestamp]
  exact List.Sublist.filter _
    ((searchLogs_sublist _ _).trans (filterLogsByActionType_sublist _ _))

set_option linter.unnecessarySeqFocus false in
/-- C7: the filter and search stages commute (both are independent per-entry
predicates), `query(logs, 'all', '')` keeps every entry and only sorts, and
`query(logs, 'loan_created', 'alice')` keeps exactly the `loan_created`
entries whose applicant name or loan id case-insensitively contains
"alice", sorted. -/
theorem query_filter_search_commute (logs : List AuditLogEntry)
    (actionType searchTerm : String) :
    searchLogs (filterLogsByActionType logs actionType) searchTerm
      = filterLogsByActionType (searchLogs logs searchTerm) actionType ∧
    processAuditLogs logs "all" "" = sortLogsByTimestamp logs ∧
    processAuditLogs logs "loan_created" "alice"
      = sortLogsByTimestamp (logs.filter (fun e =>
          e.actionType.str == "loan_created" &&
            (strContains (strToLower e.applicantName) "alice" ||
              strContains (strToLower e.loanId) "alice"))) := by
  refine ⟨?_, ?_, ?_⟩
  · by_cases hA : actionType = "" ∨ actionType = "all" <;>
      by_cases hS : strTrim searchTerm = "" <;>
      simp only [filterLogsByActionType, searchLogs, hA, hS, ite_true,
        ite_false, eq_self_iff_true, not_true, not_false_iff, reduceIte,
        List.filter_filter] <;>
      first
        | rfl
        | exact List.filter_congr fun a _ => Bool.and_comm _ _
  · have h1 : filterLogsByActionType logs "all" = logs := by
      unfold filterLogsByActionType
      rw [if_pos (by decide)]
    have h2 : searchLogs logs "" = logs := by
      unfold searchLogs
      rw [if_pos (show strTrim "" = "" from rfl)]
    unfold processAuditLogs
    rw [h1, h2]
  · have h1 : filterLogsByActionType logs "loan_created"
        = logs.filter (fun log => log.actionType.str == "loan_created") := by
      unfold filterLogsByActionType
      rw [if_neg (by decide)]
    have h2 : ∀ l : List AuditLogEntry, searchLogs l "alice"
        = l.filter (fun log =>
            strContains (strToLower log.applicantName) "alice" ||
              strContains (strToLower log.loanId) "alice") := by
      intro l
      unfold searchLogs
      rw [if_neg (by decide)]
      rfl
    unfold processAuditLogs
    rw [h1, h2, List.filter_filter]
    exact congrArg sortLogsByTimestamp
      (List.filter_congr fun a _ => Bool.and_comm _ _)

/-- Shape of a successful create action: the validated loan is appended to
the loan collection and exactly one `loan_created` entry is appended to the
audit collection. -/
theorem createAction_ok (s : AppState) (input : LoanInput) (lid gid : String)
    (now : Int) (s' : AppState)
    (h : createAction s input lid gid now = .ok s') :
    s'.loans = s.loans ++
        [{ id := lid
           applicantName := input.applicantName
           amount := input.amount
           termMonths := input.termMonths
           interestRate := input.interestRate
           status := .pending
           createdAt := now }] ∧
    s'.auditLogs = addAuditLog s.auditLogs (createLoanCreatedLog gid now
      { loanId := lid
        applicantName := input.applicantName
        loanAmount := input.amount }) := by
  unfold createAction LoanService.createLoanApplication at h
  cases hv : LoanService.validateLoanInput input with
  | error e => rw [hv] at h; exact absurd h (by simp)
  | ok u =>
      rw [hv] at h
      simp only [Except.ok.injEq] at h
      subst h
      exact ⟨rfl, rfl⟩

/-- Shape of a successful manual status update: the found loan's status is
set and exactly one manual status-change entry is appended. -/
theorem updateStatusAction_ok (s : AppState) (id : String) (st : LoanStatus)
    (gid : String) (now : Int) (s' : AppState)
    (h : updateStatusAction s id st gid now = .ok s') :
    ∃ loan, s.loans.find? (fun l => l.id == id) = some loan ∧
      s'.loans = s.loans.map (fun l => if l.id == id then { l with status := st } else l) ∧
      s'.auditLogs = addAuditLog s.auditLogs (createStatusChangeLog gid now
        { loanId := loan.id
          applicantName := loan.applicantName
          loanAmount := loan.amount
          previousStatus := loan.status.str
          newStatus := st.str
          isAuto := false }) := by
  unfold updateStatusAction LoanService.updateLoanStatus at h
  cases hfind : s.loans.find? (fun l => l.id == id) with
  | none => rw [hfind] at h; exact absurd h (by simp)
  | some loan =>
      rw [hfind] at h
      simp only [Except.ok.injEq] at h
      subst h
      exact ⟨loan, rfl, rfl, rfl⟩

/-- Shape of a successful auto-decide: the found loan's status is set to the
decision rule's output and exactly one auto status-change entry is
appended. -/
theorem autoDecideAction_ok (s : AppState) (id gid : String) (now : Int)
    (s' : AppState) (h : autoDecideAction s id gid now = .ok s') :
    ∃ loan, s.loans.find? (fun l => l.id == id) = some loan ∧
      s'.loans = s.loans.map (fun l =>
        if l.id == id then
          { l with status := LoanService.autoDecideStatus loan.amount loan.termMonths }
        else l) ∧
      s'.auditLogs = addAuditLog s.auditLogs (createStatusChangeLog gid now
        { loanId := loan.id
          applicantName := loan.applicantName
          loanAmount := loan.amount
          previousStatus := loan.status.str
          newStatus := (LoanService.autoDecideStatus loan.amount loan.termMonths).str
          isAuto := true }) := by
  unfold autoDecideAction LoanService.autoDecideLoan at h
  cases hfind : s.loans.find? (fun l => l.id == id) with
  | none => rw [hfind] at h; exact absurd h (by simp)
  | some loan =>
      rw [hfind] at h
      simp only [Except.ok.injEq] at h
      subst h
      exact ⟨loan, rfl, rfl, rfl⟩

/-- Shape of a successful delete: the loan is removed and exactly one
`loan_deleted` entry is appended, carrying the status at deletion time. -/
theorem deleteAction_ok (s : AppState) (id gid : String) (now : Int)
    (s' : AppState) (h : deleteAction s id gid now = .ok s') :
    ∃ loan, s.loans.find? (fun l => l.id == id) = some loan ∧
      s'.loans = s.loans.filter (fun l => l.id != id) ∧
      s'.auditLogs = addAuditLog s.auditLogs (createLoanDeletedLog gid now
        { loanId := loan.id
          applicantName := loan.applicantName
          loanAmount := loan.amount
          status := loan.status.str }) := by
  unfold deleteAction LoanService.deleteLoan at h
  cases hfind : s.loans.find? (fun l => l.id == id) with
  | none => rw [hfind] at h; exact absurd h (by simp)
  | some loan =>
      rw [hfind] at h
      simp only [Except.ok.injEq] at h
      subst h
      exact ⟨loan, rfl, rfl, rfl⟩

/-- C1: for every successful domain mutation — create, manual status update,
auto-decide, delete — exactly one matching audit entry (with the
field-presence rules of the data model) is appended to the audit log as part
of completing the action. -/
theorem audit_completeness :
    (∀ (s : AppState) (input : LoanInput) (lid gid : String) (now : Int)
        (s' : AppState),
      createAction s input lid gid now = .ok s' →
      ∃ e, s'.auditLogs = addAuditLog s.auditLogs e ∧ createdShape e ∧
        e.loanId = lid ∧ e.applicantName = input.applicantName ∧
        e.loanAmount = input.amount ∧ e.timestamp = now) ∧
    (∀ (s : AppState) (id : String) (st : LoanStatus) (gid : String)
        (now : Int) (s' : AppState),
      updateStatusAction s id st gid now = .ok s' →
      ∃ e loan, s.loans.find? (fun l => l.id == id) = some loan ∧
        s'.auditLogs = addAuditLog s.auditLogs e ∧ statusChangeShape e ∧
        e.actionType = .status_changed_manual ∧ e.loanId = loan.id ∧
        e.previousStatus = some loan.status.str ∧ e.newStatus = some st.str ∧
        e.decisionMethod = some "manual") ∧
    (∀ (s : AppState) (id gid : String) (now : Int) (s' : AppState),
      autoDecideAction s id gid now = .ok s' →
      ∃ e loan, s.loans.find? (fun l => l.id == id) = some loan ∧
        s'.auditLogs = addAuditLog s.auditLogs e ∧ statusChangeShape e ∧
        e.actionType = .status_changed_auto ∧ e.loanId = loan.id ∧
        e.previousStatus = some loan.status.str ∧
        e.newStatus = some (LoanService.autoDecideStatus loan.amount loan.termMonths).str ∧
        e.decisionMethod = some "auto") ∧
    (∀ (s : AppState) (id gid : String) (now : Int) (s' : AppState),
      deleteAction s id gid now = .ok s' →
      ∃ e loan, s.loans.find? (fun l => l.id == id) = some loan ∧
        s'.auditLogs = addAuditLog s.auditLogs e ∧ deletedShape e ∧
        e.loanId = loan.id ∧ e.previousStatus = some loan.status.str) := by
  refine ⟨fun s input lid gid now s' h => ?_, fun s id st gid now s' h => ?_,
    fun s id gid now s' h => ?_, fun s id gid now s' h => ?_⟩
  · exact ⟨_, (createAction_ok s input lid gid now s' h).2,
      ⟨rfl, rfl, rfl, rfl⟩, rfl, rfl, rfl, rfl⟩
  · obtain ⟨loan, hf, _, ha⟩ := updateStatusAction_ok s id st gid now s' h
    exact ⟨_, loan, hf, ha,
      ⟨Or.inl rfl, ⟨_, rfl⟩, ⟨_, rfl⟩, ⟨_, rfl⟩⟩, rfl, rfl, rfl, rfl, rfl⟩
  · obtain ⟨loan, hf, _, ha⟩ := autoDecideAction_ok s id gid now s' h
    exact ⟨_, loan, hf, ha,
      ⟨Or.inr rfl, ⟨_, rfl⟩, ⟨_, rfl⟩, ⟨_, rfl⟩⟩, rfl, rfl, rfl, rfl, rfl⟩
  · obtain ⟨loan, hf, _, ha⟩ := deleteAction_ok s id gid now s' h
    exact ⟨_, loan, hf, ha, ⟨rfl, ⟨_, rfl⟩, rfl, rfl⟩, rfl, rfl⟩

/-- Witness for C1: one concrete successful run of each of the four
actions. -/
theorem audit_completeness_witness :
    (∃ e, stateAfterCreate.auditLogs = addAuditLog initState.auditLogs e ∧
      createdShape e ∧ e.loanId = "L1" ∧
      e.applicantName = johnDoeInput.applicantName ∧
      e.loanAmount = johnDoeInput.amount ∧ e.timestamp = 1000) ∧
    (∃ e loan, stateWithJohn.loans.find? (fun l => l.id == "1") = some loan ∧
      stateAfterApprove.auditLogs = addAuditLog stateWithJohn.auditLogs e ∧
      statusChangeShape e ∧ e.actionType = .status_changed_manual ∧
      e.loanId = loan.id ∧ e.previousStatus = some loan.status.str ∧
      e.newStatus = some LoanStatus.approved.str ∧
      e.decisionMethod = some "manual") ∧
    (∃ e loan, stateWithJohn.loans.find? (fun l => l.id == "1") = some loan ∧
      stateAfterAutoDecide.auditLogs = addAuditLog stateWithJohn.auditLogs e ∧
      statusChangeShape e ∧ e.actionType = .status_changed_auto ∧
      e.loanId = loan.id ∧ e.previousStatus = some loan.status.str ∧
      e.newStatus = some (LoanService.autoDecideStatus loan.amount loan.termMonths).str ∧
      e.decisionMethod = some "auto") ∧
    (∃ e loan, stateWithJohn.loans.find? (fun l => l.id == "1") = some loan ∧
      stateAfterDelete.auditLogs = addAuditLog stateWithJohn.auditLogs e ∧
      deletedShape e ∧ e.loanId = loan.id ∧
      e.previousStatus = some loan.status.str) :=
  ⟨audit_completeness.1 initState johnDoeInput "L1" "G1" 1000 stateAfterCreate (by rfl),
   audit_completeness.2.1 stateWithJohn "1" .approved "G2" 2000 stateAfterApprove (by rfl),
   audit_completeness.2.2.1 stateWithJohn "1" "G3" 3000 stateAfterAutoDecide (by rfl),
   audit_completeness.2.2.2 stateWithJohn "1" "G4" 4000 stateAfterDelete (by rfl)⟩

/-- The decision rule always lands in one of the two terminal statuses. -/
theorem autoDecideStatus_cases (a : ℚ) (t : ℕ) :
    LoanService.autoDecideStatus a t = .approved ∨
      LoanService.autoDecideStatus a t = .rejected := by
  unfold LoanService.autoDecideStatus
  split_ifs <;> simp

/-- Setting the status of the matching record does not change any id. -/
theorem ids_map_setter (loans : List LoanApplication) (id : String)
    (st : LoanStatus) :
    (loans.map (fun l => if l.id == id then { l with status := st } else l)).map
        (fun l => l.id)
      = loans.map (fun l => l.id) := by
  rw [List.map_map]
  refine List.map_congr_left fun x _ => ?_
  by_cases h : (x.id == id) = true <;> simp [Function.comp, h]

/-- Every user action preserves uniqueness of loan ids. -/
theorem step_nodup (s s' : AppState) (hstep : Step s s')
    (hnd : (s.loans.map (fun l => l.id)).Nodup) :
    (s'.loans.map (fun l => l.id)).Nodup := by
  cases hstep with
  | create input fid gid now hfresh hok =>
      obtain ⟨hloans, -⟩ := createAction_ok _ input fid gid now _ hok
      rw [hloans, List.map_append]
      refine ((List.perm_append_singleton _ _).nodup_iff).mpr
        (List.nodup_cons.mpr ⟨?_, hnd⟩)
      intro hmem
      obtain ⟨x, hx, hxid⟩ := List.mem_map.mp hmem
      exact hfresh x hx hxid
  | approve id gid now loanG hmemG hidG hpend hok =>
      obtain ⟨loanF, hfind, hloans, -⟩ :=
        updateStatusAction_ok _ id .approved gid now _ hok
      rw [hloans, ids_map_setter]
      exact hnd
  | reject id gid now loanG hmemG hidG hpend hok =>
      obtain ⟨loanF, hfind, hloans, -⟩ :=
        updateStatusAction_ok _ id .rejected gid now _ hok
      rw [hloans, ids_map_setter]
      exact hnd
  | autoDecide id gid now loanG hmemG hidG hpend hok =>
      obtain ⟨loanF, hfind, hloans, -⟩ := autoDecideAction_ok _ id gid now _ hok
      rw [hloans, ids_map_setter]
      exact hnd
  | delete id gid now hok =>
      obtain ⟨loanF, hfind, hloans, -⟩ := deleteAction_ok _ id gid now _ hok
      rw [hloans]
      exact hnd.sublist ((List.filter_sublist _).map _)

/-- In every reachable state the loan ids are pairwise distinct (spec §3:
ids are unique and never reused). -/
theorem reachable_ids_nodup (s : AppState) (hr : Reachable s) :
    (s.loans.map (fun l => l.id)).Nodup := by
  unfold Reachable at hr
  induction hr with
  | refl => simp [initState]
  | tail _ hstep ih => exact step_nodup _ _ hstep ih

/-- C4: in every reachable state, a user action changes a loan's status only
from `pending`, and only to `approved` or `rejected`: no transition leaves a
terminal status. -/
theorem terminal_states_never_change (s s' : AppState) (hs : Reachable s)
    (hstep : Step s s') (l : LoanApplication) (hl : l ∈ s.loans)
    (l' : LoanApplication) (hl' : l' ∈ s'.loans) (hid : l'.id = l.id) :
    l'.status = l.status ∨
      (l.status = .pending ∧ (l'.status = .approved ∨ l'.status = .rejected)) := by
  have hnd := reachable_ids_nodup s hs
  have hinj := List.inj_on_of_nodup_map hnd
  cases hstep with
  | create input fid gid now hfresh hok =>
      obtain ⟨hloans, -⟩ := createAction_ok _ input fid gid now _ hok
      rw [hloans] at hl'
      rcases List.mem_append.mp hl' with h | h
      · left
        rw [hinj h hl hid]
      · rw [List.mem_singleton.mp h] at hid
        exact absurd hid.symm (hfresh l hl)
  | approve id gid now loanG hmemG hidG hpend hok =>
      obtain ⟨loanF, hfind, hloans, -⟩ :=
        updateStatusAction_ok _ id .approved gid now _ hok
      rw [hloans] at hl'
      obtain ⟨x, hx, hfx⟩ := List.mem_map.mp hl'
      by_cases hxid : (x.id == id) = true
      · rw [if_pos hxid] at hfx
        have hxl : x = l := hinj hx hl (by rw [← hfx] at hid; exact hid)
        have hxG : x = loanG := hinj hx hmemG (by rw [beq_iff_eq] at hxid; rw [hxid, hidG])
        refine Or.inr ⟨?_, Or.inl ?_⟩
        · rw [← hxl, hxG]; exact hpend
        · rw [← hfx]
      · rw [if_neg hxid] at hfx
        left
        rw [← hfx] at hid ⊢
        rw [hinj hx hl hid]
  | reject id gid now loanG hmemG hidG hpend hok =>
      obtain ⟨loanF, hfind, hloans, -⟩ :=
        updateStatusAction_ok _ id .rejected gid now _ hok
      rw [hloans] at hl'
      obtain ⟨x, hx, hfx⟩ := List.mem_map.mp hl'
      by_cases hxid : (x.id == id) = true
      · rw [if_pos hxid] at hfx
        have hxl : x = l := hinj hx hl (by rw [← hfx] at hid; exact hid)
        have hxG : x = loanG := hinj hx hmemG (by rw [beq_iff_eq] at hxid; rw [hxid, hidG])
        refine Or.inr ⟨?_, Or.inr ?_⟩
        · rw [← hxl, hxG]; exact hpend
        · rw [← hfx]
      · rw [if_neg hxid] at hfx
        left
        rw [← hfx] at hid ⊢
        rw [hinj hx hl hid]
  | autoDecide id gid now loanG hmemG hidG hpend hok =>
      obtain ⟨loanF, hfind, hloans, -⟩ := autoDecideAction_ok _ id gid now _ hok
      rw [hloans] at hl'
      obtain ⟨x, hx, hfx⟩ := List.mem_map.mp hl'
      by_cases hxid : (x.id == id) = true
      · rw [if_pos hxid] at hfx
        have hxl : x = l := hinj hx hl (by rw [← hfx] at hid; exact hid)
        have hxG : x = loanG := hinj hx hmemG (by rw [beq_iff_eq] at hxid; rw [hxid, hidG])
        refine Or.inr ⟨?_, ?_⟩
        · rw [← hxl, hxG]; exact hpend
        · rw [← hfx]
          exact autoDecideStatus_cases loanF.amount loanF.termMonths
      · rw [if_neg hxid] at hfx
        left
        rw [← hfx] at hid ⊢
        rw [hinj hx hl hid]
  | delete id gid now hok =>
      obtain ⟨loanF, hfind, hloans, -⟩ := deleteAction_ok _ id gid now _ hok
      rw [hloans] at hl'
      left
      rw [hinj (List.mem_of_mem_filter hl') hl hid]

/-- Witness for C4: one concrete create-then-approve run; the approved copy
of the created pending loan is a legal transition target. -/
theorem terminal_states_never_change_witness :
    ({ createdJohn with status := LoanStatus.approved }).status = createdJohn.status ∨
      (createdJohn.status = .pending ∧
        (({ createdJohn with status := LoanStatus.approved }).status = .approved ∨
          ({ createdJohn with status := LoanStatus.approved }).status = .rejected)) :=
  terminal_states_never_change stateAfterCreate stateAfterCreateApprove
    (Relation.ReflTransGen.single
      (Step.create johnDoeInput "L1" "G1" 1000 (by simp [initState]) (by rfl)))
    (Step.approve "L1" "G2" 2000 createdJohn (by decide) rfl rfl (by rfl))
    createdJohn (by decide)
    { createdJohn with status := LoanStatus.approved } (by decide) rfl

/-- Allocation does not disturb existing arrays. -/
theorem heapGet_append (h : JsHeap) (v : List AuditLogEntry) (q : ℕ)
    (hq : q < h.length) : heapGet (h ++ [v]) q = heapGet h q :=
  List.getD_append h [v] [] q hq

/-- Writing one array does not disturb a different one. -/
theorem heapGet_set_ne (h : JsHeap) (c : ℕ) (v : List AuditLogEntry) (q : ℕ)
    (hne : c ≠ q) : heapGet (h.set c v) q = heapGet h q := by
  unfold heapGet
  rw [List.getD_eq_getD_get?, List.getD_eq_getD_get?]
  rw [show (h.set c v).get? q = h.get? q from by
    simp [List.get?_eq_getElem?, List.getElem?_set_ne hne]]

/-- The filter stage writes no existing array, only grows the heap, and
returns a valid reference. -/
theorem filterH_spec (h : JsHeap) (r : ℕ) (a : String) :
    (∀ q < h.length, heapGet (filterLogsByActionTypeH h r a).1 q = heapGet h q) ∧
    h.length ≤ (filterLogsByActionTypeH h r a).1.length ∧
    (r < h.length → (filterLogsByActionTypeH h r a).2 < (filterLogsByActionTypeH h r a).1.length) := by
  unfold filterLogsByActionTypeH heapAlloc
  split_ifs with hc
  · exact ⟨fun q _ => rfl, le_refl _, fun hr => hr⟩
  · refine ⟨fun q hq => heapGet_append h _ q hq, ?_, fun _ => ?_⟩ <;>
      simp [List.length_append]

/-- The search stage writes no existing array, only grows the heap, and
returns a valid reference. -/
theorem searchH_spec (h : JsHeap) (r : ℕ) (t : String) :
    (∀ q < h.length, heapGet (searchLogsH h r t).1 q = heapGet h q) ∧
    h.length ≤ (searchLogsH h r t).1.length ∧
    (r < h.length → (searchLogsH h r t).2 < (searchLogsH h r t).1.length) := by
  unfold searchLogsH heapAlloc
  split_ifs with hc
  · exact ⟨fun q _ => rfl, le_refl _, fun hr => hr⟩
  · refine ⟨fun q hq => heapGet_append h _ q hq, ?_, fun _ => ?_⟩ <;>
      simp [List.length_append]

/-- The sort stage writes only the freshly allocated copy: every existing
array is untouched. -/
theorem sortH_spec (h : JsHeap) (r : ℕ) :
    (∀ q < h.length, heapGet (sortLogsByTimestampH h r).1 q = heapGet h q) ∧
    h.length ≤ (sortLogsByTimestampH h r).1.length ∧
    (sortLogsByTimestampH h r).2 < (sortLogsByTimestampH h r).1.length := by
  unfold sortLogsByTimestampH heapAlloc heapWrite
  refine ⟨fun q hq => ?_, ?_, ?_⟩
  · rw [heapGet_set_ne _ _ _ _ (by omega), heapGet_append _ _ _ hq]
  · simp [List.length_append]
  · simp [List.length_append]

/-- C10: the query stages never mutate their input array: after each of
`filterLogsByActionTypeH`, `searchLogsH`, `sortLogsByTimestampH` and
`processAuditLogsH`, the argument array holds exactly the entries it held
before the call (`sortLogsByTimestamp` sorts a spread copy). -/
theorem query_stages_no_mutation (h : JsHeap) (r : ℕ) (hr : r < h.length)
    (actionType searchTerm : String) :
    heapGet (filterLogsByActionTypeH h r actionType).1 r = heapGet h r ∧
    heapGet (searchLogsH h r searchTerm).1 r = heapGet h r ∧
    heapGet (sortLogsByTimestampH h r).1 r = heapGet h r ∧
    heapGet (processAuditLogsH h r actionType searchTerm).1 r = heapGet h r := by
  obtain ⟨f1, f2, f3⟩ := filterH_spec h r actionType
  obtain ⟨s1, -, -⟩ := searchH_spec h r searchTerm
  obtain ⟨o1, -, -⟩ := sortH_spec h r
  refine ⟨f1 r hr, s1 r hr, o1 r hr, ?_⟩
  obtain ⟨g1, g2, -⟩ := searchH_spec (filterLogsByActionTypeH h r actionType).1
    (filterLogsByActionTypeH h r actionType).2 searchTerm
  obtain ⟨t1, -, -⟩ := sortH_spec
    (searchLogsH (filterLogsByActionTypeH h r actionType).1
      (filterLogsByActionTypeH h r actionType).2 searchTerm).1
    (searchLogsH (filterLogsByActionTypeH h r actionType).1
      (filterLogsByActionTypeH h r actionType).2 searchTerm).2
  show heapGet (sortLogsByTimestampH
    (searchLogsH (filterLogsByActionTypeH h r actionType).1
      (filterLogsByActionTypeH h r actionType).2 searchTerm).1
    (searchLogsH (filterLogsByActionTypeH h r actionType).1
      (filterLogsByActionTypeH h r actionType).2 searchTerm).2).1 r = heapGet h r
  rw [t1 r (lt_of_lt_of_le (lt_of_lt_of_le hr f2) g2),
    g1 r (lt_of_lt_of_le hr f2), f1 r hr]

/-- Witness for C10 on a one-array heap. -/
theorem query_stages_no_mutation_witness :
    heapGet (processAuditLogsH [[]] 0 "loan_created" "alice").1 0
      = heapGet [[]] 0 :=
  (query_stages_no_mutation [[]] 0 (by decide) "loan_created" "alice").2.2.2
